import Mathlib

/-!
# Verification of the MEGA SDK gfx worker server

Shallow embedding of `src/gfxworker/src/server.cpp` (namespace `mega::gfx`)
together with the task data model of the gfx worker
(`GfxTaskProcessStatus`, `GfxTask`, `GfxTaskResult`).

The image provider (collaborator `IGfxProvider::generateImages`) is modelled
as a function from a path and an ordered dimension list to an ordered list of
encoded image byte-strings; the file accessor `mFaccess` that the C++ code
passes through to the provider is absorbed into that function.  Calls the
processor makes to the provider are returned as an explicit trace so that
"the provider is invoked exactly once / never" is statable.

`std::sort` with the strict comparator `dimensions[i1].w() > dimensions[i2].w()`
is modelled by `List.insertionSort` with the same comparator: for pairwise
distinct widths every conforming `std::sort` execution produces the same
output as insertion sort, and for tied widths insertion sort realises one of
the unspecified-but-allowed executions.
-/

namespace GfxWorker

/-- `enum class GfxTaskProcessStatus { SUCCESS = 0, ERR = 1, PENDING }`. -/
inductive GfxTaskProcessStatus where
  | SUCCESS
  | ERR
  | PENDING
deriving DecidableEq, Repr

/-- The numeric value of each enumerator, as used by
`static_cast<uint32_t>(result.ProcessStatus)` in `RequestProcessor::processGfx`. -/
def GfxTaskProcessStatus.toCode : GfxTaskProcessStatus → Nat
  | .SUCCESS => 0
  | .ERR => 1
  | .PENDING => 2

/-- A requested output size `GfxDimension { w, h }` (C++ `int` fields). -/
structure GfxDimension where
  w : Int
  h : Int
deriving DecidableEq, Repr

instance : Inhabited GfxDimension := ⟨⟨0, 0⟩⟩

/-- `struct GfxTask { Path; Dimensions }` (platform-encoded path plus the
ordered dimension list). -/
structure GfxTask where
  Path : String
  Dimensions : List GfxDimension

/-- `struct GfxTaskResult { ProcessStatus; OutputImages }`; images are encoded
byte-strings. -/
structure GfxTaskResult where
  ProcessStatus : GfxTaskProcessStatus
  OutputImages : List String
deriving DecidableEq, Repr

/-- One invocation of `IGfxProvider::generateImages`: the source path and the
ordered dimension list handed to the provider. -/
structure ProviderCall where
  path : String
  dims : List GfxDimension
deriving DecidableEq, Repr

/-- The image provider collaborator: path and ordered dimensions in, ordered
encoded images out (deterministic, as the spec assumes). -/
def Provider : Type := String → List GfxDimension → List String

/-- The index permutation computed in `GfxProcessor::process` lines 57-67:
`iota` indices `0..n-1`, then `std::sort` by
`dimensions[i1].w() > dimensions[i2].w()` (descending width). -/
def sortedIndices (dimensions : List GfxDimension) : List Nat :=
  List.insertionSort
    (fun i1 i2 => (dimensions.getD i1 default).w > (dimensions.getD i2 default).w)
    (List.range dimensions.length)

/-- The `sortedDimensions` vector of `GfxProcessor::process` lines 70-74:
the requested dimensions permuted by `sortedIndices`. -/
def sortedDimensions (dimensions : List GfxDimension) : List GfxDimension :=
  (sortedIndices dimensions).map (fun i => dimensions.getD i default)

/-- The write-back loop of `GfxProcessor::process` lines 83-86:
`for (i = 0; i < images.size(); ++i) outputImages[indices[i]] = images[i]`.
The loop touches exactly the first `images.length` entries of `indices`,
which the zip captures. -/
def assignBack (outputImages : List String) (indices : List Nat)
    (images : List String) : List String :=
  (indices.zip images).foldl (fun acc p => acc.set p.1 p.2) outputImages

/-- `GfxTaskResult GfxProcessor::process(const GfxTask& task)`
(server.cpp lines 47-89), instrumented with the trace of provider calls:

* `outputImages` starts as `task.Dimensions.size()` empty strings;
* empty dimension list ⇒ `ERR` with those (zero) images, provider untouched;
* otherwise sort indices by descending width, build `sortedDimensions`,
  call `generateImages` once, scatter the returned images back to the
  caller's order, return `SUCCESS`. -/
def GfxProcessor.process (provider : Provider) (task : GfxTask) :
    GfxTaskResult × List ProviderCall :=
  let outputImages := List.replicate task.Dimensions.length ""
  if task.Dimensions.isEmpty then
    (⟨.ERR, outputImages⟩, [])
  else
    let indices := sortedIndices task.Dimensions
    let sortedDims := sortedDimensions task.Dimensions
    let images := provider task.Path sortedDims
    (⟨.SUCCESS, assignBack outputImages indices images⟩, [⟨task.Path, sortedDims⟩])

theorem assignBack_nil_images (out : List String) (indices : List Nat) :
    assignBack out indices [] = out := by
  simp [assignBack]

theorem assignBack_cons (out : List String) (a : Nat) (is : List Nat)
    (b : String) (bs : List String) :
    assignBack out (a :: is) (b :: bs) = assignBack (out.set a b) is bs := rfl

theorem length_assignBack (out : List String) (indices : List Nat)
    (images : List String) :
    (assignBack out indices images).length = out.length := by
  induction indices generalizing out images with
  | nil => simp [assignBack]
  | cons a is ih =>
    cases images with
    | nil => simp [assignBack]
    | cons b bs => rw [assignBack_cons, ih]; simp

/-- Positions outside the written index list are untouched by the
write-back loop. -/
theorem assignBack_getD_not_mem (out : List String) (indices : List Nat)
    (images : List String) (a : Nat) (ha : a ∉ indices) (d : String) :
    (assignBack out indices images).getD a d = out.getD a d := by
  induction indices generalizing out images with
  | nil => simp [assignBack]
  | cons i is ih =>
    cases images with
    | nil => simp [assignBack]
    | cons b bs =>
      rw [assignBack_cons, ih _ _ (fun h => ha (List.mem_cons_of_mem _ h))]
      have hia : i ≠ a := fun h => ha (h ▸ List.mem_cons_self _ _)
      simp [List.getD, List.getElem?_set_ne hia]

/-- With pairwise distinct in-range indices, the write-back loop places the
`j`-th returned image at position `indices[j]`. -/
theorem assignBack_getD_at (out : List String) (indices : List Nat)
    (images : List String) (hnd : indices.Nodup)
    (hlt : ∀ i ∈ indices, i < out.length) (hle : images.length ≤ indices.length)
    (j : Nat) (hj : j < images.length) :
    (assignBack out indices images).getD (indices.getD j 0) "" =
      images.getD j "" := by
  induction images generalizing out indices j with
  | nil => exact absurd hj (by simp)
  | cons b bs ih =>
    cases indices with
    | nil => simp at hle
    | cons a is =>
      rw [assignBack_cons]
      cases j with
      | zero =>
        have hmem : a ∉ is := (List.nodup_cons.1 hnd).1
        rw [show (a :: is).getD 0 0 = a from rfl,
          assignBack_getD_not_mem _ _ _ a hmem]
        have halt : a < out.length := hlt a (List.mem_cons_self _ _)
        simp [List.getD, List.getElem?_set_eq_of_lt _ halt]
      | succ j' =>
        rw [show (a :: is).getD (j' + 1) 0 = is.getD j' 0 from rfl,
          show (b :: bs).getD (j' + 1) "" = bs.getD j' "" from rfl]
        refine ih (out.set a b) is ((List.nodup_cons.1 hnd).2) ?_ ?_ j' ?_
        · intro i hi
          have := hlt i (List.mem_cons_of_mem _ hi)
          simpa using this
        · simpa using Nat.le_of_succ_le_succ hle
        · exact Nat.lt_of_succ_lt_succ hj

/-- Positions `indices[j]` with `j` beyond the number of returned images keep
their initial value (the loop bound is `images.size()`). -/
theorem assignBack_getD_unfilled (out : List String) (indices : List Nat)
    (images : List String) (hnd : indices.Nodup)
    (j : Nat) (hji : j < indices.length) (hj : images.length ≤ j) :
    (assignBack out indices images).getD (indices.getD j 0) "" =
      out.getD (indices.getD j 0) "" := by
  induction images generalizing out indices j with
  | nil => rw [assignBack_nil_images]
  | cons b bs ih =>
    cases indices with
    | nil => exact absurd hji (by simp)
    | cons a is =>
      cases j with
      | zero => exact absurd hj (by simp)
      | succ j' =>
        rw [assignBack_cons,
          show (a :: is).getD (j' + 1) 0 = is.getD j' 0 from rfl]
        have hj'i : j' < is.length := Nat.lt_of_succ_lt_succ hji
        rw [ih (out.set a b) is ((List.nodup_cons.1 hnd).2) j' hj'i
          (Nat.le_of_succ_le_succ hj)]
        have hmem : is.getD j' 0 ∈ is := by
          rw [List.getD_eq_getElem _ _ hj'i]; exact List.getElem_mem _
        have hne : a ≠ is.getD j' 0 := fun h => (List.nodup_cons.1 hnd).1 (h ▸ hmem)
        generalize is.getD j' 0 = p at hne ⊢
        simp [List.getD, List.getElem?_set_ne hne]

theorem sortedIndices_perm (dimensions : List GfxDimension) :
    (sortedIndices dimensions).Perm (List.range dimensions.length) :=
  List.perm_insertionSort _ _

theorem sortedIndices_length (dimensions : List GfxDimension) :
    (sortedIndices dimensions).length = dimensions.length := by
  rw [(sortedIndices_perm dimensions).length_eq, List.length_range]

theorem sortedIndices_nodup (dimensions : List GfxDimension) :
    (sortedIndices dimensions).Nodup :=
  ((sortedIndices_perm dimensions).nodup_iff).2 (List.nodup_range _)

theorem sortedIndices_mem_iff (dimensions : List GfxDimension) (i : Nat) :
    i ∈ sortedIndices dimensions ↔ i < dimensions.length := by
  rw [(sortedIndices_perm dimensions).mem_iff, List.mem_range]

theorem sortedDimensions_length (dimensions : List GfxDimension) :
    (sortedDimensions dimensions).length = dimensions.length := by
  rw [sortedDimensions, List.length_map, sortedIndices_length]

/-- The fixed advisory suffix `extraFormatsByWorker` of
`GfxProcessor::supportedformats` (server.cpp line 98). -/
def extraFormatsByWorker : String := ".tif.exr.pic.pct.tiff.pict"

/-- The extensions of `extraFormatsByWorker`, in the order they occur in the
string (each entry is one `.`-separated component). -/
def extraExtensionsInOrder : List String := ["tif", "exr", "pic", "pct", "tiff", "pict"]

/-- `std::string GfxProcessor::supportedformats()` (server.cpp lines 96-101):
the provider's still-image format list (`nullptr` modelled as `none`) with the
fixed suffix appended when present, `""` otherwise. -/
def GfxProcessor.supportedformats (providerFormats : Option String) : String :=
  match providerFormats with
  | some formats => formats ++ extraFormatsByWorker
  | none => ""

/-- `std::string GfxProcessor::supportedvideoformats()` (server.cpp 103-107). -/
def GfxProcessor.supportedvideoformats (providerVideoFormats : Option String) : String :=
  match providerVideoFormats with
  | some formats => formats
  | none => ""

/-- Wire command kinds (`CommandType`): the closed set dispatched on by
`RequestProcessor::process`. -/
inductive CommandType where
  | HELLO
  | SHUTDOWN
  | NEW_GFX
  | SUPPORT_FORMATS
deriving DecidableEq, Repr

/-- A decoded command (`ICommand` variants); `newGfx` carries its `Task`. -/
inductive Command where
  | hello
  | shutDown
  | newGfx (Task : GfxTask)
  | supportFormats

/-- `ICommand::type()`. -/
def Command.type : Command → CommandType
  | .hello => .HELLO
  | .shutDown => .SHUTDOWN
  | .newGfx _ => .NEW_GFX
  | .supportFormats => .SUPPORT_FORMATS

/-- `const TimeoutMs RequestProcessor::READ_TIMEOUT(5000)` (server.cpp 36). -/
def RequestProcessor.READ_TIMEOUT : Nat := 5000

/-- `const TimeoutMs RequestProcessor::WRITE_TIMEOUT(5000)` (server.cpp 38). -/
def RequestProcessor.WRITE_TIMEOUT : Nat := 5000

/-- `CommandNewGfxResponse { ErrorCode; ErrorText; Images }`. -/
structure CommandNewGfxResponse where
  ErrorCode : Nat
  ErrorText : String
  Images : List String
deriving DecidableEq, Repr

/-- The responses a handler writes to its endpoint. -/
inductive Response where
  | helloResponse
  | shutDownResponse
  | newGfxResponse (r : CommandNewGfxResponse)
  | supportFormatsResponse (formats : String) (videoformats : String)

/-- `void RequestProcessor::processGfx(...)` (server.cpp 185-202): run the
gfx processor on the embedded task and build the response with
`ErrorCode = static_cast<uint32_t>(status)`,
`ErrorText = status == SUCCESS ? "OK" : "ERROR"` and the result's images. -/
def RequestProcessor.processGfx (provider : Provider) (task : GfxTask) :
    CommandNewGfxResponse :=
  let result := (GfxProcessor.process provider task).1
  { ErrorCode := result.ProcessStatus.toCode
    ErrorText := if result.ProcessStatus = .SUCCESS then "OK" else "ERROR"
    Images := result.OutputImages }

/-- The switch inside the lambda pushed to the thread pool
(server.cpp 139-166): each handler writes exactly one response.
`providerFormats` / `providerVideoFormats` model the provider's format
lists for the `SUPPORT_FORMATS` handler (server.cpp 204-214). -/
def RequestProcessor.dispatch (provider : Provider)
    (providerFormats providerVideoFormats : Option String) :
    Command → List Response
  | .hello => [.helloResponse]
  | .shutDown => [.shutDownResponse]
  | .newGfx task => [.newGfxResponse (RequestProcessor.processGfx provider task)]
  | .supportFormats =>
      [.supportFormatsResponse (GfxProcessor.supportedformats providerFormats)
        (GfxProcessor.supportedvideoformats providerVideoFormats)]

/-- `bool RequestProcessor::process(endpoint)` (server.cpp 117-168).
`readResult` is the outcome of `reader.readCommand(READ_TIMEOUT)`: `none`
for every decode failure (short read, malformed frame, unsupported version,
or timeout).  Returns the `stopRunning` flag together with the list of
work units pushed to the thread pool (each unit later dispatches its
command and writes its response):

* read failure ⇒ `(false, [])`: no submission, hence no response;
* decoded command ⇒ `(command.type == SHUTDOWN, [command])`: exactly one
  submission, return value computed before the push. -/
def RequestProcessor.process (readResult : Option Command) : Bool × List Command :=
  match readResult with
  | none => (false, [])
  | some command => (command.type == CommandType.SHUTDOWN, [command])

/-- All responses that will be written on the endpoint for a connection:
the queued work units, each run through the dispatch switch. -/
def RequestProcessor.responsesWritten (provider : Provider)
    (providerFormats providerVideoFormats : Option String)
    (readResult : Option Command) : List Response :=
  ((RequestProcessor.process readResult).2.map
    (RequestProcessor.dispatch provider providerFormats providerVideoFormats)).flatten

/-- Concrete deterministic provider used to instantiate hypotheses: returns
three fixed images whatever it is asked. -/
def provABC : Provider := fun _ _ => ["A", "B", "C"]

/-- Concrete deterministic provider returning a single image. -/
def provX : Provider := fun _ _ => ["X"]

/-- C3: with an empty dimensions list, `GfxProcessor::process` returns
status `ERR` with a zero-length image list, and the provider is never
invoked (empty call trace). -/
theorem process_empty_dimensions_err (provider : Provider) (path : String) :
    GfxProcessor.process provider ⟨path, []⟩ = (⟨.ERR, []⟩, []) := rfl

/-- C4: `supportedformats` with provider formats `".jpg.png"` returns exactly
`".jpg.png.tif.exr.pic.pct.tiff.pict"`; with absent provider formats it
returns `""`; in general a present list gets the fixed suffix appended. -/
theorem supportedformats_suffix_behaviour :
    GfxProcessor.supportedformats (some ".jpg.png") =
      ".jpg.png.tif.exr.pic.pct.tiff.pict" ∧
    GfxProcessor.supportedformats none = "" ∧
    ∀ formats : String,
      GfxProcessor.supportedformats (some formats) = formats ++ extraFormatsByWorker :=
  ⟨by decide, rfl, fun _ => rfl⟩

/-- C5 counterexample: it is NOT the case that in the fixed advisory suffix
every longer extension is listed before a shorter extension it extends;
in particular `tiff` does not appear before `tif`. -/
theorem extensions_longest_first_false :
    ¬ (∀ a ∈ extraExtensionsInOrder, ∀ b ∈ extraExtensionsInOrder,
        a.data.take b.data.length = b.data → b ≠ a →
        extraExtensionsInOrder.indexOf a < extraExtensionsInOrder.indexOf b) := by
  decide

/-- C5 (amended): the suffix string is exactly the listed extensions in
order, and every SHORTER extension appears before any longer extension that
it is a proper prefix of; in particular `.tif` appears before `.tiff`
(shortest-match-first ordering, as the code comment explains). -/
theorem extensions_shorter_first :
    extraFormatsByWorker =
      String.join (extraExtensionsInOrder.map (fun e => "." ++ e)) ∧
    (∀ a ∈ extraExtensionsInOrder, ∀ b ∈ extraExtensionsInOrder,
      a.data.take b.data.length = b.data → b ≠ a →
      extraExtensionsInOrder.indexOf b < extraExtensionsInOrder.indexOf a) ∧
    extraExtensionsInOrder.indexOf "tif" < extraExtensionsInOrder.indexOf "tiff" := by
  decide

/-- C5 witness: the amended ordering property applied at the concrete pair
`pict` / `pic`. -/
theorem extensions_shorter_first_witness :
    extraExtensionsInOrder.indexOf "pic" < extraExtensionsInOrder.indexOf "pict" :=
  extensions_shorter_first.2.1 "pict" (by decide) "pic" (by decide) (by decide)
    (by decide)

/-- C7: on a read failure (any decode failure, including expiry of the
5000 ms read deadline) `RequestProcessor::process` returns `false`, submits
nothing to the worker pool, and no response is written on the endpoint. -/
theorem process_read_failure_no_effects (provider : Provider)
    (providerFormats providerVideoFormats : Option String) :
    RequestProcessor.process none = (false, []) ∧
    RequestProcessor.responsesWritten provider providerFormats
      providerVideoFormats none = [] ∧
    RequestProcessor.READ_TIMEOUT = 5000 :=
  ⟨rfl, rfl, rfl⟩

/-- C8: on a decoded command, `RequestProcessor::process` submits exactly
that one work unit to the pool and returns `true` iff the command type is
`SHUTDOWN`; the shutdown command is dispatched to its handler like any
other (its queued handler writes the shutdown acknowledgement). -/
theorem process_decoded_queues_once (command : Command) :
    (RequestProcessor.process (some command)).2 = [command] ∧
    ((RequestProcessor.process (some command)).1 = true ↔
      command.type = CommandType.SHUTDOWN) ∧
    ∀ (provider : Provider) (providerFormats providerVideoFormats : Option String),
      RequestProcessor.dispatch provider providerFormats providerVideoFormats
        Command.shutDown = [Response.shutDownResponse] := by
  refine ⟨rfl, ?_, fun _ _ _ => rfl⟩
  simp [RequestProcessor.process]

/-- C8 witness: a shutdown command yields `true`, a hello command is the
single queued unit. -/
theorem process_decoded_queues_once_witness :
    (RequestProcessor.process (some Command.shutDown)).1 = true ∧
    (RequestProcessor.process (some Command.hello)).2 = [Command.hello] :=
  ⟨(process_decoded_queues_once Command.shutDown).2.1.mpr rfl,
   (process_decoded_queues_once Command.hello).1⟩

/-- C9: `GfxProcessor::process` with a deterministic provider is
reproducible: two invocations on identical tasks produce the same status
and the same ordered image list. -/
theorem process_idempotent (provider : Provider) (task1 task2 : GfxTask)
    (hPath : task1.Path = task2.Path)
    (hDims : task1.Dimensions = task2.Dimensions) :
    (GfxProcessor.process provider task1).1.ProcessStatus =
      (GfxProcessor.process provider task2).1.ProcessStatus ∧
    (GfxProcessor.process provider task1).1.OutputImages =
      (GfxProcessor.process provider task2).1.OutputImages := by
  cases task1
  cases task2
  cases hPath
  cases hDims
  exact ⟨rfl, rfl⟩

/-- C9 witness: the reproducibility statement at a concrete provider and
task. -/
theorem process_idempotent_witness :
    (GfxProcessor.process provABC ⟨"p", [⟨1, 2⟩]⟩).1.ProcessStatus =
      (GfxProcessor.process provABC ⟨"p", [⟨1, 2⟩]⟩).1.ProcessStatus ∧
    (GfxProcessor.process provABC ⟨"p", [⟨1, 2⟩]⟩).1.OutputImages =
      (GfxProcessor.process provABC ⟨"p", [⟨1, 2⟩]⟩).1.OutputImages :=
  process_idempotent provABC ⟨"p", [⟨1, 2⟩]⟩ ⟨"p", [⟨1, 2⟩]⟩ rfl rfl

/-- C2: for the request `[(50,50), (100,100), (75,75)]` the provider is
invoked exactly once, with `[(100,100), (75,75), (50,50)]` (descending
width), and when it returns images `[a, b, c]` for those sizes the final
result is `[c, a, b]` — the `(50,50)`-image, the `(100,100)`-image, then
the `(75,75)`-image, matching the original request order. -/
theorem process_example_descending (provider : Provider) (p a b c : String)
    (h : provider p [⟨100, 100⟩, ⟨75, 75⟩, ⟨50, 50⟩] = [a, b, c]) :
    GfxProcessor.process provider ⟨p, [⟨50, 50⟩, ⟨100, 100⟩, ⟨75, 75⟩]⟩ =
      (⟨.SUCCESS, [c, a, b]⟩, [⟨p, [⟨100, 100⟩, ⟨75, 75⟩, ⟨50, 50⟩]⟩]) := by
  have e : GfxProcessor.process provider ⟨p, [⟨50, 50⟩, ⟨100, 100⟩, ⟨75, 75⟩]⟩ =
      (⟨.SUCCESS, assignBack ["", "", ""] [1, 2, 0]
        (provider p [⟨100, 100⟩, ⟨75, 75⟩, ⟨50, 50⟩])⟩,
       [⟨p, [⟨100, 100⟩, ⟨75, 75⟩, ⟨50, 50⟩]⟩]) := rfl
  rw [e, h]
  rfl

/-- C2 witness: the example with a concrete provider returning
`["A", "B", "C"]` on the descending-width invocation. -/
theorem process_example_descending_witness :
    GfxProcessor.process provABC ⟨"path", [⟨50, 50⟩, ⟨100, 100⟩, ⟨75, 75⟩]⟩ =
      (⟨.SUCCESS, ["C", "A", "B"]⟩,
       [⟨"path", [⟨100, 100⟩, ⟨75, 75⟩, ⟨50, 50⟩]⟩]) :=
  process_example_descending provABC "path" "A" "B" "C" rfl

/-- C6: `RequestProcessor::processGfx` maps result status `SUCCESS` to
`error_code 0` / `error_text "OK"` and `ERR` to `error_code 1` /
`error_text "ERROR"`, and attaches the result's images to the response. -/
theorem processGfx_status_mapping (provider : Provider) (task : GfxTask) :
    ((GfxProcessor.process provider task).1.ProcessStatus = .SUCCESS →
      (RequestProcessor.processGfx provider task).ErrorCode = 0 ∧
      (RequestProcessor.processGfx provider task).ErrorText = "OK") ∧
    ((GfxProcessor.process provider task).1.ProcessStatus = .ERR →
      (RequestProcessor.processGfx provider task).ErrorCode = 1 ∧
      (RequestProcessor.processGfx provider task).ErrorText = "ERROR") ∧
    (RequestProcessor.processGfx provider task).Images =
      (GfxProcessor.process provider task).1.OutputImages := by
  refine ⟨fun h => ?_, fun h => ?_, rfl⟩ <;>
    simp [RequestProcessor.processGfx, h, GfxTaskProcessStatus.toCode]

/-- C6 witness: the mapping instantiated on a succeeding task (non-empty
dimensions) and on a failing task (empty dimensions). -/
theorem processGfx_status_mapping_witness :
    ((RequestProcessor.processGfx provABC ⟨"p", [⟨1, 2⟩]⟩).ErrorCode = 0 ∧
      (RequestProcessor.processGfx provABC ⟨"p", [⟨1, 2⟩]⟩).ErrorText = "OK") ∧
    ((RequestProcessor.processGfx provABC ⟨"p", []⟩).ErrorCode = 1 ∧
      (RequestProcessor.processGfx provABC ⟨"p", []⟩).ErrorText = "ERROR") :=
  ⟨(processGfx_status_mapping provABC ⟨"p", [⟨1, 2⟩]⟩).1 rfl,
   (processGfx_status_mapping provABC ⟨"p", []⟩).2.1 rfl⟩

/-- C1: for a non-empty dimensions list, assuming the provider returns one
image per supplied dimension in the same order, the result's image list has
the task's length and the image at caller index `i` is exactly the one the
provider produced for `dimensions[i]`: writing `j` for the position of `i`
in the sorted index permutation, the `j`-th dimension handed to the
provider equals `dimensions[i]` and the result at `i` equals the provider's
`j`-th image. -/
theorem process_restores_request_order (provider : Provider) (task : GfxTask)
    (hne : task.Dimensions ≠ [])
    (hlen : (provider task.Path (sortedDimensions task.Dimensions)).length =
      task.Dimensions.length) :
    (GfxProcessor.process provider task).1.OutputImages.length =
      task.Dimensions.length ∧
    ∀ i, i < task.Dimensions.length →
      (sortedIndices task.Dimensions).indexOf i < task.Dimensions.length ∧
      (sortedDimensions task.Dimensions).getD
          ((sortedIndices task.Dimensions).indexOf i) default =
        task.Dimensions.getD i default ∧
      (GfxProcessor.process provider task).1.OutputImages.getD i "" =
        (provider task.Path (sortedDimensions task.Dimensions)).getD
          ((sortedIndices task.Dimensions).indexOf i) "" := by
  have hempty : task.Dimensions.isEmpty = false := by
    cases hd : task.Dimensions with
    | nil => exact absurd hd hne
    | cons x xs => rfl
  have hproc : (GfxProcessor.process provider task).1 =
      ⟨.SUCCESS, assignBack (List.replicate task.Dimensions.length "")
        (sortedIndices task.Dimensions)
        (provider task.Path (sortedDimensions task.Dimensions))⟩ := by
    simp [GfxProcessor.process, hempty]
  rw [hproc]
  refine ⟨by rw [length_assignBack, List.length_replicate], fun i hi => ?_⟩
  have himem : i ∈ sortedIndices task.Dimensions :=
    (sortedIndices_mem_iff task.Dimensions i).2 hi
  have hj : (sortedIndices task.Dimensions).indexOf i <
      (sortedIndices task.Dimensions).length :=
    List.indexOf_lt_length.2 himem
  have hjlen : (sortedIndices task.Dimensions).indexOf i <
      task.Dimensions.length := by
    rwa [sortedIndices_length] at hj
  have hgetD : (sortedIndices task.Dimensions).getD
      ((sortedIndices task.Dimensions).indexOf i) 0 = i := by
    rw [List.getD_eq_getElem _ _ hj]
    exact List.getElem_indexOf hj
  refine ⟨hjlen, ?_, ?_⟩
  · rw [sortedDimensions,
      List.getD_eq_getElem _ _ (by rw [List.length_map]; exact hj),
      List.getElem_map, ← List.getD_eq_getElem _ 0 hj, hgetD]
  · have h2 := assignBack_getD_at (List.replicate task.Dimensions.length "")
      (sortedIndices task.Dimensions)
      (provider task.Path (sortedDimensions task.Dimensions))
      (sortedIndices_nodup task.Dimensions)
      (fun k hk => by
        rw [List.length_replicate]
        exact (sortedIndices_mem_iff task.Dimensions k).1 hk)
      (by rw [hlen, sortedIndices_length])
      ((sortedIndices task.Dimensions).indexOf i)
      (by rw [hlen]; exact hjlen)
    rw [hgetD] at h2
    exact h2

/-- C1 witness: the order-restoration property at a concrete three-size
task with a provider returning exactly three images. -/
theorem process_restores_request_order_witness :
    (GfxProcessor.process provABC
        ⟨"p", [⟨50, 50⟩, ⟨100, 100⟩, ⟨75, 75⟩]⟩).1.OutputImages.length =
      ([⟨50, 50⟩, ⟨100, 100⟩, ⟨75, 75⟩] : List GfxDimension).length ∧
    ∀ i, i < ([⟨50, 50⟩, ⟨100, 100⟩, ⟨75, 75⟩] : List GfxDimension).length →
      (sortedIndices [⟨50, 50⟩, ⟨100, 100⟩, ⟨75, 75⟩]).indexOf i <
        ([⟨50, 50⟩, ⟨100, 100⟩, ⟨75, 75⟩] : List GfxDimension).length ∧
      (sortedDimensions [⟨50, 50⟩, ⟨100, 100⟩, ⟨75, 75⟩]).getD
          ((sortedIndices [⟨50, 50⟩, ⟨100, 100⟩, ⟨75, 75⟩]).indexOf i) default =
        ([⟨50, 50⟩, ⟨100, 100⟩, ⟨75, 75⟩] : List GfxDimension).getD i default ∧
      (GfxProcessor.process provABC
          ⟨"p", [⟨50, 50⟩, ⟨100, 100⟩, ⟨75, 75⟩]⟩).1.OutputImages.getD i "" =
        (provABC "p" (sortedDimensions [⟨50, 50⟩, ⟨100, 100⟩, ⟨75, 75⟩])).getD
          ((sortedIndices [⟨50, 50⟩, ⟨100, 100⟩, ⟨75, 75⟩]).indexOf i) "" :=
  process_restores_request_order provABC
    ⟨"p", [⟨50, 50⟩, ⟨100, 100⟩, ⟨75, 75⟩]⟩ (by decide) (by decide)

/-- C10: `GfxProcessor::process` returns `ERR` exactly for the empty
dimensions list, never returns `PENDING`, and for a non-empty list returns
`SUCCESS`; when the provider returns fewer images than dimensions, the
slots it does not fill stay empty byte-strings (the write-back loop runs
only `images.size()` times). -/
theorem process_status_err_iff_empty (provider : Provider) (task : GfxTask) :
    ((GfxProcessor.process provider task).1.ProcessStatus = .ERR ↔
      task.Dimensions = []) ∧
    (GfxProcessor.process provider task).1.ProcessStatus ≠ .PENDING ∧
    (task.Dimensions ≠ [] →
      (GfxProcessor.process provider task).1.ProcessStatus = .SUCCESS) ∧
    ((provider task.Path (sortedDimensions task.Dimensions)).length ≤
        task.Dimensions.length →
      ∀ j, (provider task.Path (sortedDimensions task.Dimensions)).length ≤ j →
        j < task.Dimensions.length →
        (GfxProcessor.process provider task).1.OutputImages.getD
          ((sortedIndices task.Dimensions).getD j 0) "" = "") := by
  obtain ⟨path, dims⟩ := task
  cases dims with
  | nil =>
    exact ⟨by simp [GfxProcessor.process], by simp [GfxProcessor.process],
      fun h => absurd rfl h,
      fun _ j _ hj2 => absurd hj2 (Nat.not_lt_zero j)⟩
  | cons x xs =>
    have hproc : (GfxProcessor.process provider ⟨path, x :: xs⟩).1 =
        ⟨.SUCCESS, assignBack (List.replicate (x :: xs).length "")
          (sortedIndices (x :: xs))
          (provider path (sortedDimensions (x :: xs)))⟩ := rfl
    refine ⟨by rw [hproc]; simp, by rw [hproc]; simp, fun _ => by rw [hproc],
      fun hle j hj1 hj2 => ?_⟩
    have h2 := assignBack_getD_unfilled (List.replicate (x :: xs).length "")
      (sortedIndices (x :: xs)) (provider path (sortedDimensions (x :: xs)))
      (sortedIndices_nodup (x :: xs)) j
      (by rw [sortedIndices_length]; exact hj2) hj1
    have h3 : (List.replicate (x :: xs).length "").getD
        ((sortedIndices (x :: xs)).getD j 0) "" = "" := by
      rcases Nat.lt_or_ge ((sortedIndices (x :: xs)).getD j 0)
        (x :: xs).length with hlt | hge
      · rw [List.getD_eq_getElem _ _ (by simpa using hlt)]
        simp
      · rw [List.getD_eq_default _ _ (by simpa using hge)]
    rw [hproc]
    exact h2.trans h3

/-- C10 witness: a provider returning a single image on a two-size task
yields `SUCCESS` with the unfilled slot left as the empty string; the
empty-dimensions task yields `ERR`. -/
theorem process_status_err_iff_empty_witness :
    (GfxProcessor.process provX ⟨"p", []⟩).1.ProcessStatus = .ERR ∧
    (GfxProcessor.process provX ⟨"p", [⟨5, 5⟩, ⟨9, 9⟩]⟩).1.ProcessStatus =
      .SUCCESS ∧
    (GfxProcessor.process provX ⟨"p", [⟨5, 5⟩, ⟨9, 9⟩]⟩).1.OutputImages.getD
      ((sortedIndices [⟨5, 5⟩, ⟨9, 9⟩]).getD 1 0) "" = "" :=
  ⟨(process_status_err_iff_empty provX ⟨"p", []⟩).1.mpr rfl,
   (process_status_err_iff_empty provX ⟨"p", [⟨5, 5⟩, ⟨9, 9⟩]⟩).2.2.1
     (by decide),
   (process_status_err_iff_empty provX ⟨"p", [⟨5, 5⟩, ⟨9, 9⟩]⟩).2.2.2
     (by decide) 1 (by decide) (by decide)⟩

end GfxWorker
